import Mathlib

/-!
Verification of the Morphik example agent (src/agent.py, src/tools.py).

The Python code is shallowly embedded: JSON values become the inductive `Val`;
the external collaborators (the Morphik retrieval client and the OpenAI client)
become an `Env` record of oracle functions returning `Except ToolErr _`; each
tool handler becomes a Lean function returning the handler result (or error),
the session state after the call, and the ordered trace of collaborator calls
it issued (`List Effect`).  `_json_dumps` is modelled as the identity on the
structured value: a `Val` result stands for the JSON text it serializes to.
-/

/-- A JSON-like Python value, as produced by `json.loads` on tool-call
arguments and consumed/produced by the tool handlers. Floats do not occur in
any argument path a claim touches and are not modelled. -/
inductive Val where
  | null
  | bool (b : Bool)
  | int (n : Int)
  | str (s : String)
  | list (xs : List Val)
  | obj (kvs : List (String × Val))

mutual

/-- Boolean equality on `Val` (used for Python `==` and dict-key lookup). -/
def Val.beq : Val → Val → Bool
  | .null, .null => true
  | .bool a, .bool b => a == b
  | .int a, .int b => a == b
  | .str a, .str b => a == b
  | .list xs, .list ys => Val.beqList xs ys
  | .obj xs, .obj ys => Val.beqObj xs ys
  | _, _ => false

/-- Elementwise `Val.beq` on lists. -/
def Val.beqList : List Val → List Val → Bool
  | [], [] => true
  | x :: xs, y :: ys => Val.beq x y && Val.beqList xs ys
  | _, _ => false

/-- Elementwise `Val.beq` on key-value lists. -/
def Val.beqObj : List (String × Val) → List (String × Val) → Bool
  | [], [] => true
  | (k, v) :: xs, (l, w) :: ys => k == l && Val.beq v w && Val.beqObj xs ys
  | _, _ => false

end

mutual

theorem Val.beq_refl : ∀ a : Val, Val.beq a a = true
  | .null => rfl
  | .bool a => by simp [Val.beq]
  | .int a => by simp [Val.beq]
  | .str a => by simp [Val.beq]
  | .list xs => by simp [Val.beq, Val.beqList_refl xs]
  | .obj xs => by simp [Val.beq, Val.beqObj_refl xs]

theorem Val.beqList_refl : ∀ xs : List Val, Val.beqList xs xs = true
  | [] => rfl
  | x :: xs => by simp [Val.beqList, Val.beq_refl x, Val.beqList_refl xs]

theorem Val.beqObj_refl : ∀ xs : List (String × Val), Val.beqObj xs xs = true
  | [] => rfl
  | (k, v) :: xs => by simp [Val.beqObj, Val.beq_refl v, Val.beqObj_refl xs]

end

mutual

theorem Val.eq_of_beq : ∀ a b : Val, Val.beq a b = true → a = b
  | .null, .null, _ => rfl
  | .bool a, .bool b, h => by simpa [Val.beq] using h
  | .int a, .int b, h => by simpa [Val.beq] using h
  | .str a, .str b, h => by simpa [Val.beq] using h
  | .list xs, .list ys, h => by
      rw [Val.eqList_of_beq xs ys (by simpa [Val.beq] using h)]
  | .obj xs, .obj ys, h => by
      rw [Val.eqObj_of_beq xs ys (by simpa [Val.beq] using h)]
  | .null, .bool _, h => by simp [Val.beq] at h
  | .null, .int _, h => by simp [Val.beq] at h
  | .null, .str _, h => by simp [Val.beq] at h
  | .null, .list _, h => by simp [Val.beq] at h
  | .null, .obj _, h => by simp [Val.beq] at h
  | .bool _, .null, h => by simp [Val.beq] at h
  | .bool _, .int _, h => by simp [Val.beq] at h
  | .bool _, .str _, h => by simp [Val.beq] at h
  | .bool _, .list _, h => by simp [Val.beq] at h
  | .bool _, .obj _, h => by simp [Val.beq] at h
  | .int _, .null, h => by simp [Val.beq] at h
  | .int _, .bool _, h => by simp [Val.beq] at h
  | .int _, .str _, h => by simp [Val.beq] at h
  | .int _, .list _, h => by simp [Val.beq] at h
  | .int _, .obj _, h => by simp [Val.beq] at h
  | .str _, .null, h => by simp [Val.beq] at h
  | .str _, .bool _, h => by simp [Val.beq] at h
  | .str _, .int _, h => by simp [Val.beq] at h
  | .str _, .list _, h => by simp [Val.beq] at h
  | .str _, .obj _, h => by simp [Val.beq] at h
  | .list _, .null, h => by simp [Val.beq] at h
  | .list _, .bool _, h => by simp [Val.beq] at h
  | .list _, .int _, h => by simp [Val.beq] at h
  | .list _, .str _, h => by simp [Val.beq] at h
  | .list _, .obj _, h => by simp [Val.beq] at h
  | .obj _, .null, h => by simp [Val.beq] at h
  | .obj _, .bool _, h => by simp [Val.beq] at h
  | .obj _, .int _, h => by simp [Val.beq] at h
  | .obj _, .str _, h => by simp [Val.beq] at h
  | .obj _, .list _, h => by simp [Val.beq] at h

theorem Val.eqList_of_beq : ∀ xs ys : List Val, Val.beqList xs ys = true → xs = ys
  | [], [], _ => rfl
  | [], _ :: _, h => by simp [Val.beqList] at h
  | _ :: _, [], h => by simp [Val.beqList] at h
  | x :: xs, y :: ys, h => by
      have h1 : Val.beq x y = true := by
        have := h; simp [Val.beqList, Bool.and_eq_true] at this; exact this.1
      have h2 : Val.beqList xs ys = true := by
        have := h; simp [Val.beqList, Bool.and_eq_true] at this; exact this.2
      rw [Val.eq_of_beq x y h1, Val.eqList_of_beq xs ys h2]

theorem Val.eqObj_of_beq :
    ∀ xs ys : List (String × Val), Val.beqObj xs ys = true → xs = ys
  | [], [], _ => rfl
  | [], _ :: _, h => by simp [Val.beqObj] at h
  | _ :: _, [], h => by simp [Val.beqObj] at h
  | (k, v) :: xs, (l, w) :: ys, h => by
      have h0 : k = l := by
        have := h; simp [Val.beqObj, Bool.and_eq_true] at this; exact this.1.1
      have h1 : Val.beq v w = true := by
        have := h; simp [Val.beqObj, Bool.and_eq_true] at this; exact this.1.2
      have h2 : Val.beqObj xs ys = true := by
        have := h; simp [Val.beqObj, Bool.and_eq_true] at this; exact this.2
      rw [h0, Val.eq_of_beq v w h1, Val.eqObj_of_beq xs ys h2]

end

instance : DecidableEq Val := fun a b =>
  if h : Val.beq a b = true then .isTrue (Val.eq_of_beq a b h)
  else .isFalse (fun he => h (he ▸ Val.beq_refl a))

/-- Python truthiness (`bool(v)`) for the modelled values. -/
def Val.falsy : Val → Bool
  | .null => true
  | .bool b => !b
  | .int n => n == 0
  | .str s => s.isEmpty
  | .list xs => xs.isEmpty
  | .obj kvs => kvs.isEmpty

/-- Python `a or b`: `b` when `a` is falsy, else `a`. -/
def pyOr (a b : Val) : Val :=
  if a.falsy then b else a

/-- Python `f"{v}"` / `str(v)`.  Faithful on the scalar values that occur as
document ids; the rendering of composite values is structural and no claim
depends on it. -/
def Val.pyStr : Val → String
  | .null => "None"
  | .bool b => if b then "True" else "False"
  | .int n => toString n
  | .str s => s
  | .list _ => "<list>"
  | .obj _ => "<dict>"

/-- Tool-call arguments: the dictionary `json.loads` produced.  A key mapped
to JSON `null` is kept (Python distinguishes a key bound to `None` from an
absent key in `dict.get(key, default)`). -/
abbrev Args := List (String × Val)

/-- Python `arguments.get(key)`: the bound value, or `None` when absent. -/
def getArg (args : Args) (k : String) : Val :=
  match List.lookup k (args : List (String × Val)) with
  | some v => v
  | none => Val.null

/-- Python `arguments.get(key, default)`. -/
def getArgD (args : Args) (k : String) (d : Val) : Val :=
  match List.lookup k (args : List (String × Val)) with
  | some v => v
  | none => d

/-- Exceptions a tool handler can raise: `ValueError`s raised by the handler
code itself, and anything raised by a collaborator call. -/
inductive ToolErr where
  | valueError (msg : String)
  | upstream (msg : String)
deriving DecidableEq

/-- Python `str(exc)`. -/
def ToolErr.message : ToolErr → String
  | .valueError m => m
  | .upstream m => m

/-- Python `int(v)` on the modelled values: ints unchanged, booleans as 0/1,
strings parsed as integer literals (else `ValueError`), everything else a
`TypeError`-class failure. -/
def toInt : Val → Except ToolErr Int
  | .int n => .ok n
  | .bool b => .ok (if b then 1 else 0)
  | .str s =>
      match s.toInt? with
      | some n => .ok n
      | none => .error (.valueError ("invalid literal for int(): " ++ s))
  | _ => .error (.valueError "int() argument must be a number or a string")

/-- The content of a retrieved chunk, as `_serialize_chunk` distinguishes it:
a `str`, a non-`str` object with a `size` attribute, or any other object
(rendered via `str(content)`). -/
inductive ChunkContent where
  | text (s : String)
  | sized (size : String)
  | other (r : String)
deriving DecidableEq

/-- A retrieval chunk (`morphik` `FinalChunkResult`): the eight fields
`_serialize_chunk` reads. -/
structure Chunk where
  document_id : Val
  chunk_number : Val
  score : Val
  content : ChunkContent
  metadata : Val
  content_type : Val
  filename : Val
  download_url : Val
deriving DecidableEq

/-- Handler helper `_serialize_chunk` (src/tools.py:234-251). -/
def _serialize_chunk (c : Chunk) : Val :=
  let content : Val :=
    match c.content with
    | .text s => Val.str s
    | .sized size => Val.str ("<image size=" ++ size ++ ">")
    | .other r => Val.str r
  Val.obj [("document_id", c.document_id), ("chunk_number", c.chunk_number),
    ("score", c.score), ("content", content), ("metadata", c.metadata),
    ("content_type", c.content_type), ("filename", c.filename),
    ("download_url", c.download_url)]

/-- Metadata of a Morphik document, restricted to the field
`_load_file_for_execution` reads (`document.filename`, an optional string). -/
structure Document where
  filename : Option String
deriving DecidableEq

/-- The external collaborators (Morphik client and OpenAI client), as oracles.
Each call may raise (`.error`).  `filesCreate` takes the filename and the raw
bytes (modelled as an abstract string) and returns the uploaded file id. -/
structure Env where
  retrieveChunks : Val → Int → Except ToolErr (List Chunk)
  extractDocumentPages : Val → Int → Int → Except ToolErr (List (String × Val))
  batchGetChunks : List (Val × Int) → Except ToolErr (List Chunk)
  listDocuments : Int → Int → Val → Val → Val → Except ToolErr Val
  getDocument : Val → Except ToolErr Document
  getDocumentFile : Val → Except ToolErr String
  filesCreate : String → String → Except ToolErr String

/-- One entry of the session `loaded_files` mapping:
`{"file_id": ..., "filename": ...}`. -/
structure LoadedFile where
  file_id : String
  filename : String
deriving DecidableEq

/-- The per-query session state `{"file_ids": set(), "loaded_files": {}}`
threaded through `run_tool_call` (src/agent.py:34). -/
structure AgentState where
  file_ids : List String
  loaded_files : List (Val × LoadedFile)
deriving DecidableEq

/-- The empty session state created at query start. -/
def initState : AgentState := ⟨[], []⟩

/-- Python `set.add`: insert if not already present. -/
def insertSet (x : String) (xs : List String) : List String :=
  if x ∈ xs then xs else xs ++ [x]

/-- Python `document_id in loaded_files` / `loaded_files[document_id]`. -/
def alookup (k : Val) : List (Val × LoadedFile) → Option LoadedFile
  | [] => none
  | (k', v) :: rest => if k = k' then some v else alookup k rest

/-- A collaborator call issued by a handler, in issue order. -/
inductive Effect where
  | retrieve (query : Val) (k : Int)
  | extractPages (document_id : Val) (start_page end_page : Int)
  | batchGet (sources : List (Val × Int))
  | listDocs (skip limit : Int) (completed_only sort_by sort_direction : Val)
  | getDocument (document_id : Val)
  | getDocumentFile (document_id : Val)
  | uploadFile (filename : String) (bytes : String)
deriving DecidableEq

/-- What a handler produces: its result or exception, the session state after
the call, and the trace of collaborator calls it issued. -/
abbrev HandlerOut := Except ToolErr Val × AgentState × List Effect

/-- Python `range(lo, hi)` on integers, as a list. -/
def intRange (lo hi : Int) : List Int :=
  (List.range (hi - lo).toNat).map (fun (i : Nat) => lo + (i : Int))

/-- Handler `_retrieve_chunks` (src/tools.py:118-129).  `query` must be truthy;
`k = int(arguments.get("k") or 4)`; one retrieval call; chunks serialized in
the retrieval-given order. -/
def _retrieve_chunks (env : Env) (args : Args) (st : AgentState) : HandlerOut :=
  let query := getArg args "query"
  if query.falsy then
    (.error (.valueError "query is required"), st, [])
  else
    match toInt (pyOr (getArg args "k") (Val.int 4)) with
    | .error e => (.error e, st, [])
    | .ok k =>
      match env.retrieveChunks query k with
      | .error e => (.error e, st, [Effect.retrieve query k])
      | .ok chunks =>
          (.ok (Val.obj [("query", query), ("k", Val.int k),
              ("chunks", Val.list (chunks.map _serialize_chunk))]),
           st, [Effect.retrieve query k])

/-- Handler `_get_page_range` (src/tools.py:132-172).  Page mode when both
`start_page` and `end_page` are non-`None`; else chunk mode when both
`start_chunk` and `end_chunk` are non-`None`; else `ValueError`. -/
def _get_page_range (env : Env) (args : Args) (st : AgentState) : HandlerOut :=
  let document_id := getArg args "document_id"
  if document_id.falsy then
    (.error (.valueError "document_id is required"), st, [])
  else
    let start_page := getArg args "start_page"
    let end_page := getArg args "end_page"
    let start_chunk := getArg args "start_chunk"
    let end_chunk := getArg args "end_chunk"
    if start_page ≠ Val.null ∧ end_page ≠ Val.null then
      match toInt start_page with
      | .error e => (.error e, st, [])
      | .ok sp =>
        match toInt end_page with
        | .error e => (.error e, st, [])
        | .ok ep =>
          match env.extractDocumentPages document_id sp ep with
          | .error e => (.error e, st, [Effect.extractPages document_id sp ep])
          | .ok pages =>
              (.ok (Val.obj (("type", Val.str "pages") :: pages)),
               st, [Effect.extractPages document_id sp ep])
    else if start_chunk ≠ Val.null ∧ end_chunk ≠ Val.null then
      match toInt start_chunk with
      | .error e => (.error e, st, [])
      | .ok sc =>
        match toInt end_chunk with
        | .error e => (.error e, st, [])
        | .ok ec =>
          if ec < sc then
            (.error (.valueError "end_chunk must be >= start_chunk"), st, [])
          else
            let sources := (intRange sc (ec + 1)).map
              (fun chunk_number => (document_id, chunk_number))
            match env.batchGetChunks sources with
            | .error e => (.error e, st, [Effect.batchGet sources])
            | .ok chunks =>
                (.ok (Val.obj [("type", Val.str "chunks"),
                    ("document_id", document_id),
                    ("start_chunk", Val.int sc), ("end_chunk", Val.int ec),
                    ("chunks", Val.list (chunks.map _serialize_chunk))]),
                 st, [Effect.batchGet sources])
    else
      (.error (.valueError "Provide start_page/end_page or start_chunk/end_chunk"),
       st, [])

/-- The `completed_only` normalization inside `_list_documents`
(src/tools.py:178-180): default `False` when absent; a string value becomes
`value.lower() == "true"`; every other value is left unchanged. -/
def normCompletedOnly (args : Args) : Val :=
  match getArgD args "completed_only" (Val.bool false) with
  | Val.str s => Val.bool (s.toLower == "true")
  | v => v

/-- Handler `_list_documents` (src/tools.py:175-190). -/
def _list_documents (env : Env) (args : Args) (st : AgentState) : HandlerOut :=
  match toInt (pyOr (getArg args "skip") (Val.int 0)) with
  | .error e => (.error e, st, [])
  | .ok skip =>
    match toInt (pyOr (getArg args "limit") (Val.int 100)) with
    | .error e => (.error e, st, [])
    | .ok limit =>
      let completed_only := normCompletedOnly args
      let sort_by := getArgD args "sort_by" (Val.str "updated_at")
      let sort_direction := getArgD args "sort_direction" (Val.str "desc")
      match env.listDocuments skip limit completed_only sort_by sort_direction with
      | .error e =>
          (.error e, st,
           [Effect.listDocs skip limit completed_only sort_by sort_direction])
      | .ok resp =>
          (.ok resp, st,
           [Effect.listDocs skip limit completed_only sort_by sort_direction])

/-- Python `document.filename or f"{document_id}"` (src/tools.py:213). -/
def deriveFilename (docFilename : Option String) (document_id : Val) : String :=
  match docFilename with
  | some s => if s.isEmpty then document_id.pyStr else s
  | none => document_id.pyStr

/-- Handler `_load_file_for_execution` (src/tools.py:193-231).  Cached documents are
answered from session state with no collaborator call; otherwise metadata
lookup, byte fetch and upload happen in that order, and both state mutations
(`file_ids` insertion, `loaded_files` entry) happen only after the upload
succeeded. -/
def _load_file_for_execution (env : Env) (args : Args) (st : AgentState) :
    HandlerOut :=
  let document_id := getArg args "document_external_id"
  if document_id.falsy then
    (.error (.valueError "document_external_id is required"), st, [])
  else
    match alookup document_id st.loaded_files with
    | some lf =>
        (.ok (Val.obj [("document_id", document_id),
            ("file_id", Val.str lf.file_id), ("filename", Val.str lf.filename),
            ("status", Val.str "already_loaded")]),
         st, [])
    | none =>
      match env.getDocument document_id with
      | .error e => (.error e, st, [Effect.getDocument document_id])
      | .ok document =>
        let filename := deriveFilename document.filename document_id
        match env.getDocumentFile document_id with
        | .error e =>
            (.error e, st,
             [Effect.getDocument document_id, Effect.getDocumentFile document_id])
        | .ok file_bytes =>
          match env.filesCreate filename file_bytes with
          | .error e =>
              (.error e, st,
               [Effect.getDocument document_id, Effect.getDocumentFile document_id,
                Effect.uploadFile filename file_bytes])
          | .ok file_id =>
              (.ok (Val.obj [("document_id", document_id),
                  ("file_id", Val.str file_id), ("filename", Val.str filename),
                  ("status", Val.str "loaded")]),
               { file_ids := insertSet file_id st.file_ids,
                 loaded_files := st.loaded_files ++ [(document_id, ⟨file_id, filename⟩)] },
               [Effect.getDocument document_id, Effect.getDocumentFile document_id,
                Effect.uploadFile filename file_bytes])

/-- Dispatcher `run_tool_call` (src/tools.py:99-115): dispatch by tool name; unknown
names raise `ValueError`. -/
def run_tool_call (env : Env) (name : String) (args : Args) (st : AgentState) :
    HandlerOut :=
  if name = "retrieve_chunks" then _retrieve_chunks env args st
  else if name = "get_page_range" then _get_page_range env args st
  else if name = "list_documents" then _list_documents env args st
  else if name = "load_file_for_execution" then _load_file_for_execution env args st
  else (.error (.valueError ("Unknown tool: " ++ name)), st, [])

/-- A function-call item produced by the model (src/agent.py, `call`).
`arguments` is the outcome of `json.loads(call.arguments or "{}")` on the raw
argument string, which is library behaviour: `some args` when the string
parses as a JSON object (an absent or empty string parses as `{}`), `none`
when parsing raises `json.JSONDecodeError`. -/
structure ToolCall where
  name : String
  call_id : String
  arguments : Option Args

/-- An item of a model response `output` list: a function call or anything
else (messages, reasoning items, ...). -/
inductive OutputItem where
  | function_call (call : ToolCall)
  | other

/-- A model-service response (the fields src/agent.py reads). -/
structure Response where
  output : List OutputItem
  output_text : String
  id : String

/-- Loop helper `_collect_function_calls` (src/agent.py:29-30). -/
def _collect_function_calls (r : Response) : List ToolCall :=
  r.output.filterMap (fun item =>
    match item with
    | .function_call call => some call
    | .other => none)

/-- One `function_call_output` entry (src/agent.py:66-72).  `output` is the
structured value whose `_json_dumps` serialization is sent. -/
structure ToolOutput where
  call_id : String
  output : Val

/-- The per-call body of the dispatch loop (src/agent.py:49-72): parse
arguments with the empty-object fallback, run the tool, and on any exception
substitute `{"error": str(exc)}`. -/
def processToolCall (env : Env) (call : ToolCall) (st : AgentState) :
    ToolOutput × AgentState × List Effect :=
  let args := call.arguments.getD []
  match run_tool_call env call.name args st with
  | (.ok result, st1, tr) => (⟨call.call_id, result⟩, st1, tr)
  | (.error exc, st1, tr) =>
      (⟨call.call_id, Val.obj [("error", Val.str exc.message)]⟩, st1, tr)

/-- The whole `for call in tool_calls` loop: outputs in call order, state
threaded left to right, traces concatenated. -/
def processToolCalls (env : Env) (calls : List ToolCall) (st : AgentState) :
    List ToolOutput × AgentState × List Effect :=
  match calls with
  | [] => ([], st, [])
  | call :: rest =>
      let (out, st1, tr) := processToolCall env call st
      let (outs, st2, trs) := processToolCalls env rest st1
      (out :: outs, st2, tr ++ trs)

/-- The `while True` conversation loop of `run_agent` (src/agent.py:43-80),
with explicit fuel.  Here `model outs st` is the model service response to the
continuation request carrying the batch outputs `outs` (the state argument
stands for the freshly rebuilt tool catalog, `build_tools(state["file_ids"])`).
Returns the final text (`none` when fuel runs out), the number of
continuation requests issued to the model service, and the trace of
collaborator calls. -/
def agentLoop (env : Env) (model : List ToolOutput → AgentState → Response) :
    Nat → Response → AgentState → Option String × Nat × List Effect
  | 0, _, _ => (none, 0, [])
  | fuel + 1, r, st =>
      match _collect_function_calls r with
      | [] => (some r.output_text, 0, [])
      | call :: rest =>
          let (outs, st1, tr) := processToolCalls env (call :: rest) st
          let (res, n, trs) := agentLoop env model fuel (model outs st1) st1
          (res, n + 1, tr ++ trs)

/-- Lookup of a key in a `Val.obj` result (the JSON object the model sees). -/
def objLookup : Val → String → Option Val
  | .obj kvs, k => List.lookup k kvs
  | _, _ => none

/-- A concrete environment whose read oracles succeed with empty payloads and
whose document/file oracles fail (used to instantiate theorems). -/
def envA : Env where
  retrieveChunks := fun _ _ => .ok []
  extractDocumentPages := fun _ _ _ => .ok []
  batchGetChunks := fun _ => .ok []
  listDocuments := fun _ _ _ _ _ => .ok (Val.obj [])
  getDocument := fun _ => .error (.upstream "document not found")
  getDocumentFile := fun _ => .error (.upstream "network error")
  filesCreate := fun _ _ => .error (.upstream "upload failed")

/-- A concrete environment in which loading a document succeeds. -/
def envB : Env where
  retrieveChunks := fun _ _ => .ok []
  extractDocumentPages := fun _ _ _ => .ok []
  batchGetChunks := fun _ => .ok []
  listDocuments := fun _ _ _ _ _ => .ok (Val.obj [])
  getDocument := fun _ => .ok ⟨some "report.pdf"⟩
  getDocumentFile := fun _ => .ok "RAWBYTES"
  filesCreate := fun _ _ => .ok "file-1"

/-- Arguments used by the concrete load-tool instantiations. -/
def argsLoad : Args := [("document_external_id", Val.str "doc1")]

example :
    run_tool_call envB "load_file_for_execution" argsLoad initState =
      (.ok (Val.obj [("document_id", Val.str "doc1"), ("file_id", Val.str "file-1"),
          ("filename", Val.str "report.pdf"), ("status", Val.str "loaded")]),
       ⟨["file-1"], [(Val.str "doc1", ⟨"file-1", "report.pdf"⟩)]⟩,
       [Effect.getDocument (Val.str "doc1"), Effect.getDocumentFile (Val.str "doc1"),
        Effect.uploadFile "report.pdf" "RAWBYTES"]) := by rfl

example :
    run_tool_call envA "retrieve_chunks" [("query", Val.str "q"), ("k", Val.int 0)] initState =
      (.ok (Val.obj [("query", Val.str "q"), ("k", Val.int 4), ("chunks", Val.list [])]),
       initState, [Effect.retrieve (Val.str "q") 4]) := by rfl

example :
    run_tool_call envA "list_documents" [("completed_only", Val.int 5)] initState =
      (.ok (Val.obj []), initState,
       [Effect.listDocs 0 100 (Val.int 5) (Val.str "updated_at") (Val.str "desc")]) := by rfl

example :
    run_tool_call envA "get_page_range"
        [("document_id", Val.str "d"), ("start_chunk", Val.int 3), ("end_chunk", Val.int 5)]
        initState =
      (.ok (Val.obj [("type", Val.str "chunks"), ("document_id", Val.str "d"),
          ("start_chunk", Val.int 3), ("end_chunk", Val.int 5), ("chunks", Val.list [])]),
       initState,
       [Effect.batchGet [(Val.str "d", 3), (Val.str "d", 4), (Val.str "d", 5)]]) := by rfl

theorem retrieve_chunks_state_eq (env : Env) (args : Args) (st : AgentState) :
    (_retrieve_chunks env args st).2.1 = st := by
  simp only [_retrieve_chunks]
  repeat' split
  all_goals rfl

theorem get_page_range_state_eq (env : Env) (args : Args) (st : AgentState) :
    (_get_page_range env args st).2.1 = st := by
  simp only [_get_page_range]
  repeat' split
  all_goals rfl

theorem list_documents_state_eq (env : Env) (args : Args) (st : AgentState) :
    (_list_documents env args st).2.1 = st := by
  simp only [_list_documents]
  repeat' split
  all_goals rfl

theorem alookup_append_self (d : Val) (l : List (Val × LoadedFile)) (lf : LoadedFile)
    (h : alookup d l = none) : alookup d (l ++ [(d, lf)]) = some lf := by
  induction l with
  | nil => simp [alookup]
  | cons p rest ih =>
      obtain ⟨k, v⟩ := p
      by_cases hd : d = k
      · simp [alookup, hd] at h
      · simp [alookup, hd] at h ⊢
        exact ih h

theorem alookup_append_mono (d : Val) (l m : List (Val × LoadedFile)) (lf : LoadedFile)
    (h : alookup d l = some lf) : alookup d (l ++ m) = some lf := by
  induction l with
  | nil => simp [alookup] at h
  | cons p rest ih =>
      obtain ⟨k, v⟩ := p
      by_cases hd : d = k
      · simp [alookup, hd] at h ⊢
        exact h
      · simp [alookup, hd] at h ⊢
        exact ih h

/-- C8: Only the `load_file_for_execution` handler mutates session state: a
dispatch of `retrieve_chunks`, `get_page_range`, `list_documents`, or any
unknown tool name leaves the session state identical. -/
theorem dispatch_frame (env : Env) (name : String) (args : Args) (st : AgentState)
    (h : name ≠ "load_file_for_execution") :
    (run_tool_call env name args st).2.1 = st := by
  unfold run_tool_call
  by_cases h1 : name = "retrieve_chunks"
  · rw [if_pos h1]
    exact retrieve_chunks_state_eq env args st
  rw [if_neg h1]
  by_cases h2 : name = "get_page_range"
  · rw [if_pos h2]
    exact get_page_range_state_eq env args st
  rw [if_neg h2]
  by_cases h3 : name = "list_documents"
  · rw [if_pos h3]
    exact list_documents_state_eq env args st
  rw [if_neg h3, if_neg h]

theorem dispatch_frame_witness :
    (run_tool_call envA "retrieve_chunks" [("query", Val.str "q")] initState).2.1 =
      initState :=
  dispatch_frame envA "retrieve_chunks" [("query", Val.str "q")] initState
    (by decide)

/-- C9: a model response with zero function-call items makes the Agent Loop
terminate at once, returning the `output_text` of the response verbatim, with zero
further model requests and zero collaborator calls. -/
theorem agent_loop_done_on_no_calls (env : Env)
    (model : List ToolOutput → AgentState → Response) (fuel : Nat)
    (r : Response) (st : AgentState)
    (h : _collect_function_calls r = []) :
    agentLoop env model (fuel + 1) r st = (some r.output_text, 0, []) := by
  unfold agentLoop
  rw [h]

/-- The response used to instantiate the loop theorems: no function calls. -/
def respDone : Response := ⟨[OutputItem.other], "final answer", "resp-1"⟩

theorem agent_loop_done_on_no_calls_witness :
    agentLoop envA (fun _ _ => respDone) 5 respDone initState =
      (some "final answer", 0, []) :=
  agent_loop_done_on_no_calls envA (fun _ _ => respDone) 4 respDone initState rfl

/-- C10: `load_file_for_execution` is atomic on failure: for a document id
not already in the document-to-file mapping, if the dispatch raises (metadata
lookup, byte fetch, or upload failing included), the session state is exactly
as it was before the dispatch. -/
theorem load_file_atomic_on_failure (env : Env) (args : Args) (st : AgentState)
    (_hnew : alookup (getArg args "document_external_id") st.loaded_files = none)
    (e : ToolErr) (st1 : AgentState) (tr : List Effect)
    (h : run_tool_call env "load_file_for_execution" args st = (.error e, st1, tr)) :
    st1 = st := by
  have hload : _load_file_for_execution env args st = (.error e, st1, tr) := h
  simp only [_load_file_for_execution] at hload
  split at hload
  · exact (congrArg (fun p => p.2.1) hload).symm
  · split at hload
    · simp at hload
    · split at hload
      · exact (congrArg (fun p => p.2.1) hload).symm
      · split at hload
        · exact (congrArg (fun p => p.2.1) hload).symm
        · split at hload
          · exact (congrArg (fun p => p.2.1) hload).symm
          · simp at hload

theorem load_file_atomic_on_failure_witness :
    run_tool_call envA "load_file_for_execution" argsLoad initState =
      (.error (.upstream "document not found"), initState,
       [Effect.getDocument (Val.str "doc1")]) ∧ initState = initState :=
  ⟨rfl, load_file_atomic_on_failure envA argsLoad initState rfl
    (.upstream "document not found") initState
    [Effect.getDocument (Val.str "doc1")] rfl⟩

/-- C6: `get_page_range` fails with a `ValueError` (`InvalidArgument`-class)
whenever `document_id` is missing (or otherwise falsy), and whenever neither
the page pair nor the chunk pair is fully specified. -/
theorem get_page_range_invalid_argument (env : Env) (args : Args) (st : AgentState) :
    ((getArg args "document_id").falsy = true →
      run_tool_call env "get_page_range" args st =
        (.error (.valueError "document_id is required"), st, []))
    ∧ ((getArg args "start_page" = Val.null ∨ getArg args "end_page" = Val.null) →
       (getArg args "start_chunk" = Val.null ∨ getArg args "end_chunk" = Val.null) →
       ∃ msg : String, run_tool_call env "get_page_range" args st =
         (.error (.valueError msg), st, [])) := by
  have hdisp : run_tool_call env "get_page_range" args st =
      _get_page_range env args st := rfl
  constructor
  · intro h
    rw [hdisp]
    simp only [_get_page_range, h, if_true]
  · intro hp hc
    by_cases hd : (getArg args "document_id").falsy = true
    · exact ⟨"document_id is required", by rw [hdisp]; simp only [_get_page_range, hd, if_true]⟩
    · refine ⟨"Provide start_page/end_page or start_chunk/end_chunk", ?_⟩
      rw [hdisp]
      simp only [_get_page_range]
      rw [if_neg hd, if_neg (fun hb => hp.elim hb.1 hb.2),
        if_neg (fun hb => hc.elim hb.1 hb.2)]

theorem get_page_range_invalid_argument_witness :
    run_tool_call envA "get_page_range" [] initState =
      (.error (.valueError "document_id is required"), initState, []) :=
  (get_page_range_invalid_argument envA [] initState).1 rfl

/-- Dispatching `load_file_for_execution` for a document id cached in
`loaded_files` returns the cached handle with status `"already_loaded"`,
issues no collaborator call, and leaves the state unchanged. -/
theorem load_file_cached (env : Env) (args : Args) (st : AgentState) (lf : LoadedFile)
    (hfal : (getArg args "document_external_id").falsy = false)
    (hmem : alookup (getArg args "document_external_id") st.loaded_files = some lf) :
    run_tool_call env "load_file_for_execution" args st =
      (.ok (Val.obj [("document_id", getArg args "document_external_id"),
          ("file_id", Val.str lf.file_id), ("filename", Val.str lf.filename),
          ("status", Val.str "already_loaded")]), st, []) := by
  have hdisp : run_tool_call env "load_file_for_execution" args st =
      _load_file_for_execution env args st := rfl
  rw [hdisp]
  simp only [_load_file_for_execution, hfal, hmem]
  rfl

/-- A successful `load_file_for_execution` dispatch leaves the document id
cached, and the cached handle is the one in the returned payload. -/
theorem load_file_ok_inversion (env : Env) (args : Args) (st st1 : AgentState)
    (r1 : Val) (tr1 : List Effect)
    (h : _load_file_for_execution env args st = (.ok r1, st1, tr1)) :
    (getArg args "document_external_id").falsy = false ∧
    ∃ fid fn : String,
      alookup (getArg args "document_external_id") st1.loaded_files = some ⟨fid, fn⟩ ∧
      objLookup r1 "file_id" = some (Val.str fid) ∧
      objLookup r1 "filename" = some (Val.str fn) := by
  simp only [_load_file_for_execution] at h
  split at h
  · simp at h
  · refine ⟨by simpa using (by assumption : ¬(getArg args "document_external_id").falsy = true), ?_⟩
    split at h
    case h_1 lf heq =>
      rw [Prod.mk.injEq, Prod.mk.injEq, Except.ok.injEq] at h
      obtain ⟨hr, hst, htr⟩ := h
      refine ⟨lf.file_id, lf.filename, ?_, ?_, ?_⟩
      · rw [← hst]
        exact heq
      · rw [← hr]
        rfl
      · rw [← hr]
        rfl
    case h_2 heq =>
      split at h
      · simp at h
      case h_2 document hdoc =>
        split at h
        · simp at h
        case h_2 bytes hbytes =>
          split at h
          · simp at h
          case h_2 fid hfid =>
            rw [Prod.mk.injEq, Prod.mk.injEq, Except.ok.injEq] at h
            obtain ⟨hr, hst, htr⟩ := h
            refine ⟨fid, deriveFilename document.filename (getArg args "document_external_id"),
              ?_, ?_, ?_⟩
            · rw [← hst]
              exact alookup_append_self _ _ _ heq
            · rw [← hr]
              rfl
            · rw [← hr]
              rfl

/-- C2: `load_file_for_execution` is idempotent per session: after a dispatch
for some document id succeeds, dispatching it again from the resulting state
(under any environment) returns the `file_id` and `filename` of the first load
with status `"already_loaded"`, issues no collaborator call, and leaves the
session state unchanged. -/
theorem load_file_idempotent (env1 env2 : Env) (args : Args) (st st1 : AgentState)
    (r1 : Val) (tr1 : List Effect)
    (h : run_tool_call env1 "load_file_for_execution" args st = (.ok r1, st1, tr1)) :
    ∃ fid fn : String,
      objLookup r1 "file_id" = some (Val.str fid) ∧
      objLookup r1 "filename" = some (Val.str fn) ∧
      run_tool_call env2 "load_file_for_execution" args st1 =
        (.ok (Val.obj [("document_id", getArg args "document_external_id"),
            ("file_id", Val.str fid), ("filename", Val.str fn),
            ("status", Val.str "already_loaded")]), st1, []) := by
  have h1 : _load_file_for_execution env1 args st = (.ok r1, st1, tr1) := h
  obtain ⟨hfal, fid, fn, hmem, hfid, hfn⟩ :=
    load_file_ok_inversion env1 args st st1 r1 tr1 h1
  exact ⟨fid, fn, hfid, hfn, load_file_cached env2 args st1 ⟨fid, fn⟩ hfal hmem⟩

theorem load_file_idempotent_witness :
    run_tool_call envB "load_file_for_execution" argsLoad
        ⟨["file-1"], [(Val.str "doc1", ⟨"file-1", "report.pdf"⟩)]⟩ =
      (.ok (Val.obj [("document_id", Val.str "doc1"), ("file_id", Val.str "file-1"),
          ("filename", Val.str "report.pdf"), ("status", Val.str "already_loaded")]),
       ⟨["file-1"], [(Val.str "doc1", ⟨"file-1", "report.pdf"⟩)]⟩, []) := by
  obtain ⟨fid, fn, hfid, hfn, hrun⟩ := load_file_idempotent envB envB argsLoad initState
    ⟨["file-1"], [(Val.str "doc1", ⟨"file-1", "report.pdf"⟩)]⟩
    (Val.obj [("document_id", Val.str "doc1"), ("file_id", Val.str "file-1"),
      ("filename", Val.str "report.pdf"), ("status", Val.str "loaded")])
    [Effect.getDocument (Val.str "doc1"), Effect.getDocumentFile (Val.str "doc1"),
     Effect.uploadFile "report.pdf" "RAWBYTES"] rfl
  have h1 : fid = "file-1" := by
    symm
    simpa [objLookup, List.lookup] using hfid
  have h2 : fn = "report.pdf" := by
    symm
    simpa [objLookup, List.lookup] using hfn
  rw [h1, h2] at hrun
  exact hrun

theorem mem_insertSet_self (x : String) (xs : List String) : x ∈ insertSet x xs := by
  unfold insertSet
  split
  · assumption
  · simp

theorem mem_insertSet_of_mem (x y : String) (xs : List String) (h : y ∈ xs) :
    y ∈ insertSet x xs := by
  unfold insertSet
  split
  · exact h
  · simp [h]

theorem alookup_append_single_cases (d k : Val) (l : List (Val × LoadedFile))
    (lf v : LoadedFile) (h : alookup d (l ++ [(k, v)]) = some lf) :
    alookup d l = some lf ∨ (d = k ∧ lf = v) := by
  induction l with
  | nil =>
      simp only [List.nil_append, alookup] at h
      split at h
      · exact Or.inr ⟨by assumption, (Option.some.injEq _ _ ▸ h).symm⟩
      · simp at h
  | cons p rest ih =>
      obtain ⟨k1, v1⟩ := p
      simp only [List.cons_append, alookup] at h ⊢
      by_cases hd : d = k1
      · rw [if_pos hd] at h ⊢
        exact Or.inl h
      · rw [if_neg hd] at h ⊢
        exact ih h

/-- The session-state invariant: the file handle id of every cached document is in
the materialized-file-ids set. -/
def StateInv (st : AgentState) : Prop :=
  ∀ (d : Val) (lf : LoadedFile),
    alookup d st.loaded_files = some lf → lf.file_id ∈ st.file_ids

theorem load_file_preserves_inv (env : Env) (args : Args) (st : AgentState)
    (hinv : StateInv st) :
    StateInv ((_load_file_for_execution env args st).2.1) := by
  simp only [_load_file_for_execution]
  split
  · exact hinv
  · split
    · exact hinv
    · split
      · exact hinv
      · split
        · exact hinv
        · split
          · exact hinv
          · intro d lf hl
            simp only at hl ⊢
            rcases alookup_append_single_cases d _ _ lf _ hl with hold | hnew
            · exact mem_insertSet_of_mem _ _ _ (hinv d lf hold)
            · rw [hnew.2]
              exact mem_insertSet_self _ _

theorem run_tool_call_preserves_inv (env : Env) (name : String) (args : Args)
    (st : AgentState) (hinv : StateInv st) :
    StateInv ((run_tool_call env name args st).2.1) := by
  unfold run_tool_call
  by_cases h1 : name = "retrieve_chunks"
  · rw [if_pos h1, retrieve_chunks_state_eq]
    exact hinv
  rw [if_neg h1]
  by_cases h2 : name = "get_page_range"
  · rw [if_pos h2, get_page_range_state_eq]
    exact hinv
  rw [if_neg h2]
  by_cases h3 : name = "list_documents"
  · rw [if_pos h3, list_documents_state_eq]
    exact hinv
  rw [if_neg h3]
  by_cases h4 : name = "load_file_for_execution"
  · rw [if_pos h4]
    exact load_file_preserves_inv env args st hinv
  rw [if_neg h4]
  exact hinv

/-- The session states reachable from the empty initial state by any sequence
of tool dispatches, under any environments, names and arguments. -/
inductive Reachable : AgentState → Prop where
  | init : Reachable initState
  | step (env : Env) (name : String) (args : Args) (st : AgentState) :
      Reachable st → Reachable (run_tool_call env name args st).2.1

/-- C7: in every session state reachable from the empty initial state by tool
dispatches, every document id cached in the document-to-file mapping has its
file handle id present in the materialized-file-ids set. -/
theorem reachable_state_inv (st : AgentState) (h : Reachable st) : StateInv st := by
  induction h with
  | init =>
      intro d lf hl
      simp [initState, alookup] at hl
  | step env name args st1 h1 ih =>
      exact run_tool_call_preserves_inv env name args st1 ih

theorem reachable_state_inv_witness :
    (⟨"file-1", "report.pdf"⟩ : LoadedFile).file_id ∈
      ((run_tool_call envB "load_file_for_execution" argsLoad initState).2.1).file_ids :=
  reachable_state_inv _
    (Reachable.step envB "load_file_for_execution" argsLoad initState Reachable.init)
    (Val.str "doc1") ⟨"file-1", "report.pdf"⟩ rfl

theorem processToolCalls_length (env : Env) (calls : List ToolCall) :
    ∀ st : AgentState, (processToolCalls env calls st).1.length = calls.length := by
  induction calls with
  | nil =>
      intro st
      rfl
  | cons c rest ih =>
      intro st
      rcases h1 : processToolCall env c st with ⟨out, st1, tr⟩
      rcases h2 : processToolCalls env rest st1 with ⟨outs, st2, trs⟩
      have hlen := ih st1
      rw [h2] at hlen
      simp only [processToolCalls, h1, h2, List.length_cons]
      simpa using hlen

/-- C1: no tool call in a batch terminates the conversation: the dispatch
loop produces one output per call; a call whose argument string fails to
parse is dispatched with the empty argument object; a call whose handler
raises gets the JSON object `{"error": <message>}` as its output; and a
response with a nonempty batch makes the loop send exactly the batch outputs
to the model service and continue. -/
theorem agent_loop_error_isolation (env : Env) (calls : List ToolCall) (st : AgentState) :
    ((processToolCalls env calls st).1.length = calls.length)
    ∧ (∀ (c : ToolCall) (s : AgentState), c.arguments = none →
        processToolCall env c s = processToolCall env ⟨c.name, c.call_id, some []⟩ s)
    ∧ (∀ (c : ToolCall) (s : AgentState) (e : ToolErr),
        (run_tool_call env c.name (c.arguments.getD []) s).1 = .error e →
        (processToolCall env c s).1.output = Val.obj [("error", Val.str e.message)] ∧
        objLookup (processToolCall env c s).1.output "error" = some (Val.str e.message))
    ∧ (∀ (model : List ToolOutput → AgentState → Response) (fuel : Nat) (r : Response),
        _collect_function_calls r = calls → calls ≠ [] →
        agentLoop env model (fuel + 1) r st =
          ((agentLoop env model fuel
              (model (processToolCalls env calls st).1 (processToolCalls env calls st).2.1)
              (processToolCalls env calls st).2.1).1,
           (agentLoop env model fuel
              (model (processToolCalls env calls st).1 (processToolCalls env calls st).2.1)
              (processToolCalls env calls st).2.1).2.1 + 1,
           (processToolCalls env calls st).2.2 ++
             (agentLoop env model fuel
               (model (processToolCalls env calls st).1 (processToolCalls env calls st).2.1)
               (processToolCalls env calls st).2.1).2.2)) := by
  refine ⟨processToolCalls_length env calls st, ?_, ?_, ?_⟩
  · intro c s h
    simp [processToolCall, h]
  · intro c s e h
    rcases hrun : run_tool_call env c.name (c.arguments.getD []) s with ⟨res, st1, tr⟩
    rw [hrun] at h
    simp only at h
    subst h
    constructor
    · simp [processToolCall, hrun]
    · simp [processToolCall, hrun]
      rfl
  · intro model fuel r hr hne
    obtain ⟨c, rest, rfl⟩ : ∃ c rest, calls = c :: rest := by
      cases calls with
      | nil => exact absurd rfl hne
      | cons c rest => exact ⟨c, rest, rfl⟩
    conv_lhs => rw [agentLoop]
    rw [hr]

theorem agent_loop_error_isolation_witness :
    (processToolCall envA ⟨"nope", "call-1", none⟩ initState).1.output =
      Val.obj [("error", Val.str "Unknown tool: nope")] :=
  ((agent_loop_error_isolation envA [] initState).2.2.1 ⟨"nope", "call-1", none⟩
    initState (ToolErr.valueError "Unknown tool: nope") rfl).1

theorem intRange_sorted (lo hi : Int) : (intRange lo hi).Pairwise (· < ·) := by
  unfold intRange
  rw [List.pairwise_map]
  refine (List.pairwise_lt_range _).imp (fun {a b} h => ?_)
  show lo + (a : Int) < lo + (b : Int)
  omega

/-- C3: in chunk mode (`document_id` truthy, page pair not both present, both
chunk bounds present and integral), `get_page_range` fails with a
`ValueError` when `end_chunk < start_chunk`; otherwise it builds exactly one
source per chunk number of the inclusive range `[start_chunk, end_chunk]`, in
ascending chunk-number order, issues a single batched fetch with that source
list, and returns the fetched chunks serialized in that order. -/
theorem get_page_range_chunk_mode (env : Env) (args : Args) (st : AgentState)
    (doc : Val) (sc ec : Int)
    (hdoc : getArg args "document_id" = doc)
    (hdocT : doc.falsy = false)
    (hpage : getArg args "start_page" = Val.null ∨ getArg args "end_page" = Val.null)
    (hsc : toInt (getArg args "start_chunk") = .ok sc)
    (hec : toInt (getArg args "end_chunk") = .ok ec) :
    (ec < sc → run_tool_call env "get_page_range" args st =
        (.error (.valueError "end_chunk must be >= start_chunk"), st, []))
    ∧ (sc ≤ ec →
        ((∀ p ∈ (intRange sc (ec + 1)).map (fun n => (doc, n)), p.1 = doc)
         ∧ (∀ n : Int, (doc, n) ∈ (intRange sc (ec + 1)).map (fun n => (doc, n)) ↔
             sc ≤ n ∧ n ≤ ec)
         ∧ (((intRange sc (ec + 1)).map (fun n => (doc, n))).map Prod.snd).Pairwise (· < ·)
         ∧ (run_tool_call env "get_page_range" args st).2.2 =
             [Effect.batchGet ((intRange sc (ec + 1)).map (fun n => (doc, n)))]
         ∧ (∀ cs, env.batchGetChunks ((intRange sc (ec + 1)).map (fun n => (doc, n))) = .ok cs →
             run_tool_call env "get_page_range" args st =
               (.ok (Val.obj [("type", Val.str "chunks"), ("document_id", doc),
                   ("start_chunk", Val.int sc), ("end_chunk", Val.int ec),
                   ("chunks", Val.list (cs.map _serialize_chunk))]),
                st, [Effect.batchGet ((intRange sc (ec + 1)).map (fun n => (doc, n)))])))) := by
  have hdisp : run_tool_call env "get_page_range" args st =
      _get_page_range env args st := rfl
  have hscN : getArg args "start_chunk" ≠ Val.null := by
    intro hn
    rw [hn] at hsc
    simp [toInt] at hsc
  have hecN : getArg args "end_chunk" ≠ Val.null := by
    intro hn
    rw [hn] at hec
    simp [toInt] at hec
  have hred : run_tool_call env "get_page_range" args st =
      (if ec < sc then
        ((.error (.valueError "end_chunk must be >= start_chunk")), st, [])
       else
         match env.batchGetChunks ((intRange sc (ec + 1)).map (fun n => (doc, n))) with
         | .error e =>
             (.error e, st,
              [Effect.batchGet ((intRange sc (ec + 1)).map (fun n => (doc, n)))])
         | .ok chunks =>
             (.ok (Val.obj [("type", Val.str "chunks"), ("document_id", doc),
                 ("start_chunk", Val.int sc), ("end_chunk", Val.int ec),
                 ("chunks", Val.list (chunks.map _serialize_chunk))]),
              st, [Effect.batchGet ((intRange sc (ec + 1)).map (fun n => (doc, n)))])) := by
    rw [hdisp]
    simp only [_get_page_range, hdoc, hdocT]
    rw [if_neg (by simp), if_neg (fun hb => hpage.elim hb.1 hb.2),
      if_pos ⟨hscN, hecN⟩]
    simp only [hsc, hec]
  constructor
  · intro h
    rw [hred, if_pos h]
  · intro hle
    have hnotlt : ¬ec < sc := not_lt.mpr hle
    refine ⟨?_, ?_, ?_, ?_, ?_⟩
    · intro p hp
      rcases List.mem_map.mp hp with ⟨n, _, rfl⟩
      rfl
    · intro n
      constructor
      · intro hmem
        rcases List.mem_map.mp hmem with ⟨m, hm, he⟩
        obtain ⟨-, rfl⟩ := Prod.mk.injEq _ _ _ _ ▸ he
        simp only [intRange, List.mem_map, List.mem_range] at hm
        obtain ⟨i, hi, rfl⟩ := hm
        omega
      · intro hn
        refine List.mem_map.mpr ⟨n, ?_, rfl⟩
        simp only [intRange, List.mem_map, List.mem_range]
        exact ⟨(n - sc).toNat, by omega, by omega⟩
    · have hsnd : (((intRange sc (ec + 1)).map (fun n => (doc, n))).map Prod.snd) =
          intRange sc (ec + 1) := by
        rw [List.map_map]
        exact List.map_id _
      rw [hsnd]
      exact intRange_sorted sc (ec + 1)
    · rw [hred, if_neg hnotlt]
      rcases env.batchGetChunks ((intRange sc (ec + 1)).map (fun n => (doc, n))) with e | cs
      · rfl
      · rfl
    · intro cs hcs
      rw [hred, if_neg hnotlt]
      simp only [hcs]

theorem get_page_range_chunk_mode_witness :
    (run_tool_call envA "get_page_range"
        [("document_id", Val.str "d"), ("start_chunk", Val.int 3), ("end_chunk", Val.int 5)]
        initState).2.2 =
      [Effect.batchGet [(Val.str "d", 3), (Val.str "d", 4), (Val.str "d", 5)]] := by
  have h := ((get_page_range_chunk_mode envA
      [("document_id", Val.str "d"), ("start_chunk", Val.int 3), ("end_chunk", Val.int 5)]
      initState (Val.str "d") 3 5 rfl rfl (Or.inl rfl) rfl rfl).2
      (by decide)).2.2.2.1
  rw [h]
  rfl

theorem list_documents_trace (env : Env) (args : Args) (st : AgentState)
    (skip limit : Int)
    (hskip : toInt (pyOr (getArg args "skip") (Val.int 0)) = .ok skip)
    (hlimit : toInt (pyOr (getArg args "limit") (Val.int 100)) = .ok limit) :
    (_list_documents env args st).2.2 =
      [Effect.listDocs skip limit (normCompletedOnly args)
        (getArgD args "sort_by" (Val.str "updated_at"))
        (getArgD args "sort_direction" (Val.str "desc"))] := by
  simp only [_list_documents, hskip, hlimit]
  split <;> rfl

/-- C4 counterexample: `list_documents` with `completed_only = 5` (a
non-string, non-boolean value) passes `5` itself to the retrieval service,
not the boolean `false` the claim predicts. -/
theorem list_documents_passthrough_counterexample :
    (run_tool_call envA "list_documents" [("completed_only", Val.int 5)] initState).2.2 =
      [Effect.listDocs 0 100 (Val.int 5) (Val.str "updated_at") (Val.str "desc")]
    ∧ Val.int 5 ≠ Val.bool false :=
  ⟨rfl, by decide⟩

/-- C4 (amended): `list_documents` passes a boolean `completed_only`
unchanged, replaces a string value by the boolean `value.lower() == "true"`
(case-insensitive), defaults to boolean `false` when the key is absent, and
passes every other value (null, numbers, ...) to the retrieval service
unchanged; the normalized value is what the dispatcher hands to the
retrieval service. -/
theorem list_documents_completed_only_normalization (env : Env) (st : AgentState)
    (v : Val) :
    ((run_tool_call env "list_documents" [("completed_only", v)] st).2.2 =
      [Effect.listDocs 0 100 (normCompletedOnly [("completed_only", v)])
        (Val.str "updated_at") (Val.str "desc")])
    ∧ ((run_tool_call env "list_documents" [] st).2.2 =
      [Effect.listDocs 0 100 (Val.bool false) (Val.str "updated_at") (Val.str "desc")])
    ∧ (∀ b : Bool, normCompletedOnly [("completed_only", Val.bool b)] = Val.bool b)
    ∧ (∀ s : String, normCompletedOnly [("completed_only", Val.str s)] =
        Val.bool (s.toLower == "true"))
    ∧ (∀ n : Int, normCompletedOnly [("completed_only", Val.int n)] = Val.int n)
    ∧ normCompletedOnly [("completed_only", Val.null)] = Val.null := by
  refine ⟨?_, ?_, ?_, ?_, ?_, ?_⟩
  · exact list_documents_trace env [("completed_only", v)] st 0 100 rfl rfl
  · exact list_documents_trace env [] st 0 100 rfl rfl
  · intro b
    rfl
  · intro s
    rfl
  · intro n
    rfl
  · rfl

/-- C5 counterexample: `retrieve_chunks` with a supplied `k = 0` uses `k = 4`
(`int(arguments.get("k") or 4)` treats the falsy `0` like an absent key), not
`int(0) = 0` as the claim predicts. -/
theorem retrieve_chunks_k_zero_counterexample :
    run_tool_call envA "retrieve_chunks" [("query", Val.str "q"), ("k", Val.int 0)]
        initState =
      (.ok (Val.obj [("query", Val.str "q"), ("k", Val.int 4), ("chunks", Val.list [])]),
       initState, [Effect.retrieve (Val.str "q") 4])
    ∧ (4 : Int) ≠ 0 :=
  ⟨rfl, by decide⟩

theorem retrieve_chunks_shape (env : Env) (args : Args) (st : AgentState) (k : Int)
    (hq : (getArg args "query").falsy = false)
    (hk : toInt (pyOr (getArg args "k") (Val.int 4)) = .ok k) :
    _retrieve_chunks env args st =
      (match env.retrieveChunks (getArg args "query") k with
       | .error e => (.error e, st, [Effect.retrieve (getArg args "query") k])
       | .ok chunks =>
           (.ok (Val.obj [("query", getArg args "query"), ("k", Val.int k),
               ("chunks", Val.list (chunks.map _serialize_chunk))]), st,
            [Effect.retrieve (getArg args "query") k])) := by
  simp only [_retrieve_chunks, hq, hk, Bool.false_eq_true, if_false]

/-- C5 (amended): `retrieve_chunks` fails with a `ValueError` when `query` is
missing or otherwise falsy; otherwise it returns `{query, k, chunks}` where
`k` is the supplied `k` coerced to integer when that value is truthy and `4`
when `k` is absent, null, or otherwise falsy (such as `0`), and `chunks` is
exactly the list given by the retrieval service, serialized in the retrieval-given
order. -/
theorem retrieve_chunks_spec (env : Env) (args : Args) (st : AgentState) :
    ((getArg args "query").falsy = true →
      run_tool_call env "retrieve_chunks" args st =
        (.error (.valueError "query is required"), st, []))
    ∧ ((getArg args "query").falsy = false →
       ∀ k : Int, toInt (pyOr (getArg args "k") (Val.int 4)) = .ok k →
         ((getArg args "k" = Val.null → k = 4)
          ∧ ((getArg args "k").falsy = false → toInt (getArg args "k") = .ok k)
          ∧ (run_tool_call env "retrieve_chunks" args st).2.2 =
              [Effect.retrieve (getArg args "query") k]
          ∧ (∀ cs, env.retrieveChunks (getArg args "query") k = .ok cs →
              run_tool_call env "retrieve_chunks" args st =
                (.ok (Val.obj [("query", getArg args "query"), ("k", Val.int k),
                    ("chunks", Val.list (cs.map _serialize_chunk))]), st,
                 [Effect.retrieve (getArg args "query") k])))) := by
  have hdisp : run_tool_call env "retrieve_chunks" args st =
      _retrieve_chunks env args st := rfl
  constructor
  · intro h
    rw [hdisp]
    simp [_retrieve_chunks, h]
  · intro hq k hk
    refine ⟨?_, ?_, ?_, ?_⟩
    · intro h0
      rw [h0] at hk
      simp [pyOr, Val.falsy, toInt] at hk
      omega
    · intro hkf
      unfold pyOr at hk
      rw [hkf] at hk
      simpa using hk
    · rw [hdisp, retrieve_chunks_shape env args st k hq hk]
      split <;> rfl
    · intro cs hcs
      rw [hdisp, retrieve_chunks_shape env args st k hq hk, hcs]

theorem retrieve_chunks_spec_witness :
    run_tool_call envA "retrieve_chunks" [("query", Val.str "q")] initState =
      (.ok (Val.obj [("query", Val.str "q"), ("k", Val.int 4), ("chunks", Val.list [])]),
       initState, [Effect.retrieve (Val.str "q") 4]) :=
  (((retrieve_chunks_spec envA [("query", Val.str "q")] initState).2
    rfl 4 rfl).2.2.2) [] rfl
